import Mathlib

/-!
Shallow embedding of the Full-Stack-RAG repository (an Express API in
`src/api/src/server.ts` plus a Next.js page and QA module in
`src/web/src/pages/index.tsx`).  Pure helper functions of the source are
translated to Lean functions; every call to an external collaborator
(Supabase store, vector store, OpenAI chains, filesystem, HTTP) is
represented by an oracle field of an explicit `Env` record, and each
side-effecting step is recorded in an event trace so that ordering and
call-count properties can be stated.
-/

namespace Rag

/-- Structured note returned by the notes chain (`ArxivPaperNote` in
`notes/prompt.js`): a free-form text plus cited page numbers. -/
structure ArxivPaperNote where
  note : String
  pageNumbers : List Int
deriving Repr, DecidableEq

/-- Langchain `Document`: page content plus string-keyed metadata,
modelled as an association list. -/
structure Document where
  pageContent : String
  metadata : List (String × String)
deriving Repr, DecidableEq

/-- Row of the Supabase paper table as written by `takeNotes`:
`{url, name, paper: fullText, notes}`.  The `paper` and `notes` columns
are always present on rows created by this system. -/
structure Paper where
  name : String
  url : String
  paper : String
  notes : List ArxivPaperNote
deriving Repr, DecidableEq

/-- Answer grouping returned by the QA chain: an answer plus follow-up
questions. -/
structure QAResponse where
  answer : String
  followupQuestions : List String
deriving Repr, DecidableEq

/-- A PDF byte stream is modelled at the granularity the code observes it:
an ordered list of pages (each page an opaque string). -/
abbrev Pdf := List String

/-- Whitespace trimming on characters, used to model both the explicit
`num.trim()` of the source and the trimming `parseInt` itself performs.
Written structurally so that the kernel can evaluate it. -/
def trimChars (cs : List Char) : List Char :=
  ((cs.dropWhile Char.isWhitespace).reverse.dropWhile Char.isWhitespace).reverse

/-- Model of JavaScript `"...".split(sepChar)` for a one-character
separator: splitting never drops fields, and the empty string splits to
one empty field. -/
def splitCharAux (sep : Char) : List Char → List Char → List String
  | [], acc => [String.mk acc.reverse]
  | c :: rest, acc =>
    if c = sep then String.mk acc.reverse :: splitCharAux sep rest []
    else splitCharAux sep rest (c :: acc)

/-- Splits a string on a one-character separator, as JavaScript
`String.prototype.split` does. -/
def jsSplit (s : String) (sep : Char) : List String :=
  splitCharAux sep s.toList []

/-- Numeric value of a list of decimal digit characters. -/
def digitsToNat (ds : List Char) : Nat :=
  ds.foldl (fun acc c => acc * 10 + (c.toNat - 48)) 0

/-- Shallow model of JavaScript `parseInt(s)` on the decimal inputs this
program passes it: leading whitespace is trimmed, an optional sign is
read, then the longest prefix of decimal digits; `none` models `NaN`
(no digits).  The hexadecimal `0x` corner of `parseInt` is not reachable
from page-number inputs and is not modelled. -/
def jsParseInt (s : String) : Option Int :=
  let cs := trimChars s.toList
  let signRest : Int × List Char :=
    match cs with
    | '-' :: r => (-1, r)
    | '+' :: r => (1, r)
    | r => (1, r)
  let ds := signRest.2.takeWhile Char.isDigit
  if ds.isEmpty then none else some (signRest.1 * (digitsToNat ds : Int))

/-- Server-side `processPagesToDelete` (`src/api/src/server.ts` lines
5-8): split on commas, trim, `parseInt` each token.  There is no
filtering, so `NaN` (here `none`) and non-positive entries survive. -/
def processPagesToDelete (pagesToDelete : String) : List (Option Int) :=
  (jsSplit pagesToDelete ',').map (fun num => jsParseInt (String.mk (trimChars num.toList)))

/-- Web-side `processPagesToDelete` (`src/web/src/pages/index.tsx` lines
30-36): same split and parse, then tokens that are `NaN` or not strictly
positive are dropped.  An empty (falsy) input string yields `[]`. -/
def processPagesToDeleteWeb (pagesToDelete : String) : List Int :=
  if pagesToDelete = "" then []
  else
    ((jsSplit pagesToDelete ',').map
        (fun num => jsParseInt (String.mk (trimChars num.toList)))).filterMap
      (fun o =>
        match o with
        | some n => if 0 < n then some n else none
        | none => none)

/-- Model of `pdf-lib` `PDFDocument.removePage(idx)`: zero-based index,
and an assertion failure (modelled as an error) when the index is out of
range. -/
def removePage (doc : Pdf) (idx : Int) : Except String Pdf :=
  if 0 ≤ idx ∧ idx < (doc.length : Int) then Except.ok (doc.eraseIdx idx.toNat)
  else Except.error "removePage index out of range"

/-- Loop body of `deletePagesFromPdf`: `numToOffsetBy` starts at 1 and
increments by 1 after every deletion, and each requested page number is
passed to `removePage` as `pageNumber - numToOffsetBy`. -/
def deletePagesLoop : Pdf → List Int → Int → Except String Pdf
  | doc, [], _ => Except.ok doc
  | doc, p :: ps, numToOffsetBy =>
    match removePage doc (p - numToOffsetBy) with
    | Except.ok doc2 => deletePagesLoop doc2 ps (numToOffsetBy + 1)
    | Except.error e => Except.error e

/-- `deletePagesFromPdf` (`src/api/src/server.ts` lines 114-126): load
the document, remove the requested pages in the order given with the
shrinking-offset rule, save. -/
def deletePagesFromPdf (pdf : Pdf) (pagesToDelete : List Int) : Except String Pdf :=
  deletePagesLoop pdf pagesToDelete 1

/-- Reference semantics following the amended claim wording: with the
first remaining page currently numbered `k`, keep exactly the pages
whose number is not among the requested ones.  At `k = 1` this keeps
exactly the pages whose original 1-based number was not requested. -/
def keepFrom : Pdf → List Nat → Nat → Pdf
  | [], _, _ => []
  | x :: xs, ps, k =>
    if k ∈ ps then keepFrom xs ps (k + 1) else x :: keepFrom xs ps (k + 1)

/-- Structural prefix test on characters, modelling
`String.prototype.startsWith`. -/
def charsHavePrefix : List Char → List Char → Bool
  | _, [] => true
  | [], _ :: _ => false
  | c :: cs, p :: ps => c == p && charsHavePrefix cs ps

/-- JavaScript `url.startsWith(pre)`. -/
def jsStartsWith (s pre : String) : Bool :=
  charsHavePrefix s.toList pre.toList

/-- ASCII lower-casing of one character, enough for the scheme test the
source performs with the case-insensitive regex flag. -/
def charLower (c : Char) : Char :=
  if c.isUpper then Char.ofNat (c.toNat + 32) else c

/-- ASCII lower-casing of a string. -/
def lowerStr (s : String) : String :=
  String.mk (s.toList.map charLower)

/-- Test for the regex `^https?:\/\//i` of `loadPdfFromUrl`: the URL
starts with `http://` or `https://`, case-insensitively. -/
def isHttpUrl (url : String) : Bool :=
  jsStartsWith (lowerStr url) "http://" || jsStartsWith (lowerStr url) "https://"

/-- Test for the regex `^[A-Za-z]:\\` of `loadPdfFromUrl`: a Windows
drive-letter path. -/
def isDriveLetterPath (url : String) : Bool :=
  match url.toList with
  | a :: b :: c :: _ => a.isAlpha && b == ':' && c == '\\'
  | _ => false

/-- The `looksLikeLocalPath` test of `loadPdfFromUrl`: drive-letter
path, rooted path, or any backslash anywhere in the string. -/
def looksLikeLocalPath (url : String) : Bool :=
  isDriveLetterPath url || jsStartsWith url "/" || url.toList.contains '\\'

/-- Shallow model of Node `fileURLToPath`: strips the 7-character
`file://` scheme prefix.  Percent decoding and host handling of the real
function are below the granularity any claim observes. -/
def fileURLToPath (url : String) : String :=
  String.mk (url.toList.drop 7)

/-- The try/catch of `loadPdfFromUrl` re-raises every underlying failure
as the single error `download_pdf_failed`. -/
def wrapDownload (r : Except String Pdf) : Except String Pdf :=
  match r with
  | Except.ok b => Except.ok b
  | Except.error _ => Except.error "download_pdf_failed"

/-- JavaScript truthiness of an array value: an array is truthy even
when empty, so `!documents` is false for every array. -/
def jsArrayFalsy (_xs : List Document) : Bool := false

/-- Langchain `formatDocumentsAsString`: page contents joined by blank
lines. -/
def joinSep (sep : String) : List String → String
  | [] => ""
  | [s] => s
  | s :: rest => s ++ sep ++ joinSep sep rest

/-- Langchain `formatDocumentsAsString(docs)`. -/
def formatDocumentsAsString (docs : List Document) : String :=
  joinSep "\n\n" (docs.map Document.pageContent)

/-- The `notesAsString` built in `qaModel`: note texts joined by
newlines. -/
def notesAsString (notes : List ArxivPaperNote) : String :=
  joinSep "\n" (notes.map ArxivPaperNote.note)

/-- Model of the object spread `{...doc.metadata, url: paperUrl}`: any
previous binding of the key is replaced by the new value. -/
def setMeta (m : List (String × String)) (k v : String) : List (String × String) :=
  m.filter (fun kv => kv.1 ≠ k) ++ [(k, v)]

/-- The `newDocs` built by `takeNotes`: every extracted document tagged
with the paper URL in its metadata. -/
def newDocsFor (documents : List Document) (paperUrl : String) : List Document :=
  documents.map (fun d => { d with metadata := setMeta d.metadata "url" paperUrl })

/-- The row handed to `database.addPaper` by `takeNotes`. -/
def paperRowFor (name paperUrl : String) (newDocs : List Document)
    (notes : List ArxivPaperNote) : Paper :=
  { name := name, url := paperUrl, paper := formatDocumentsAsString newDocs, notes := notes }

/-- The synthetic fallback document `qaOnPaper` builds from the stored
full text when retrieval yields nothing. -/
def fallbackDocument (fullText : String) : Document :=
  { pageContent := fullText, metadata := [("source", "supabase-paper-fallback")] }

/-- One entry of the side-effect trace.  Each constructor records one
call to an external collaborator, in program order. -/
inductive Event where
  | fileRead (path : String)
  | httpGet (url : String) (timeoutMs : Nat)
  | editPdf (pages : List Int)
  | extractHi
  | extractLocal
  | generateNotes
  | savePaper (row : Paper)
  | indexDocs (docs : List Document)
  | similarity (question url : String)
  | modelCall (docs : List Document)
  | saveQaOk (question answer : String) (followups : List String)
  | saveQaErrorLogged (e : String)
deriving Repr, DecidableEq

/-- Oracle record for every external collaborator the two pipelines
touch: configuration flags, the Supabase store, the filesystem, HTTP,
the two PDF loaders, the two LLM chains, and the vector store.  Each
field gives the outcome the collaborator would produce for a call. -/
structure Env where
  openaiKey : Bool
  unstructuredKey : Bool
  getPaper : String → Option Paper
  readFile : String → Except String Pdf
  httpGet : String → Nat → Except String Pdf
  unstructuredLoad : Pdf → Except String (List Document)
  pdfLoaderLoad : Pdf → Except String (List Document)
  invokeNotesChain : String → Except String (List ArxivPaperNote)
  addPaper : Paper → Except String Unit
  addDocuments : List Document → Except String Unit
  similaritySearch : String → Nat → String → Except String (List Document)
  invokeQaChain : String → String → String → Except String (List QAResponse)
  saveQaWrite : String → String → String → List String → Except String Unit

/-- `loadPdfFromUrl` (`src/api/src/server.ts` lines 87-112): `file://`
URLs and bare local paths are read from the filesystem, everything else
is fetched once over HTTP with a 30000 ms timeout; every failure is
re-raised as `download_pdf_failed`. -/
def loadPdfFromUrl (env : Env) (url : String) : Except String Pdf × List Event :=
  if jsStartsWith url "file://" then
    (wrapDownload (env.readFile (fileURLToPath url)), [Event.fileRead (fileURLToPath url)])
  else if looksLikeLocalPath url && !isHttpUrl url then
    (wrapDownload (env.readFile url), [Event.fileRead url])
  else
    (wrapDownload (env.httpGet url 30000), [Event.httpGet url 30000])

/-- The optional page-deletion step of `takeNotes`: skipped for an empty
list, and a failing deletion is re-raised as `pdf_edit_failed`. -/
def editStep (pdf : Pdf) (pagesToDelete : List Int) : Except String Pdf × List Event :=
  if 0 < pagesToDelete.length then
    match deletePagesFromPdf pdf pagesToDelete with
    | Except.ok p2 => (Except.ok p2, [Event.editPdf pagesToDelete])
    | Except.error _ => (Except.error "pdf_edit_failed", [Event.editPdf pagesToDelete])
  else (Except.ok pdf, [])

/-- `convertPdfToDocuments` (`src/api/src/server.ts` lines 147-184):
when an Unstructured API key is configured the high-fidelity loader is
tried first and any of its failures (including its 60 s timeout) falls
through to the local `PDFLoader`; without a key the local loader is the
only tier.  Only a local-loader failure raises `pdf_parse_failed`. -/
def convertPdfToDocuments (env : Env) (pdf : Pdf) :
    Except String (List Document) × List Event :=
  if env.unstructuredKey then
    match env.unstructuredLoad pdf with
    | Except.ok docs => (Except.ok docs, [Event.extractHi])
    | Except.error _ =>
      match env.pdfLoaderLoad pdf with
      | Except.ok docs => (Except.ok docs, [Event.extractHi, Event.extractLocal])
      | Except.error _ =>
        (Except.error "pdf_parse_failed", [Event.extractHi, Event.extractLocal])
  else
    match env.pdfLoaderLoad pdf with
    | Except.ok docs => (Except.ok docs, [Event.extractLocal])
    | Except.error _ => (Except.error "pdf_parse_failed", [Event.extractLocal])

/-- `generateNotes` (`src/api/src/server.ts` lines 128-145): the
documents are concatenated to one context string and fed to the notes
chain; the chain outcome is returned as is. -/
def generateNotes (env : Env) (documents : List Document) :
    Except String (List ArxivPaperNote) :=
  env.invokeNotesChain (formatDocumentsAsString documents)

/-- `takeNotes` (`src/api/src/server.ts` lines 186-260): config check,
idempotency short-circuit on an existing row, fetch, optional edit,
extraction, note generation, paper save (fatal on failure), then
best-effort vector indexing whose failure is swallowed. -/
def takeNotes (env : Env) (paperUrl name : String) (pagesToDelete : List Int) :
    Except String (List ArxivPaperNote) × List Event :=
  if env.openaiKey then
    match env.getPaper paperUrl with
    | some existingPaper => (Except.ok existingPaper.notes, [])
    | none =>
      match loadPdfFromUrl env paperUrl with
      | (Except.error e, trF) => (Except.error e, trF)
      | (Except.ok pdf0, trF) =>
        match editStep pdf0 pagesToDelete with
        | (Except.error e, trE) => (Except.error e, trF ++ trE)
        | (Except.ok pdf1, trE) =>
          match convertPdfToDocuments env pdf1 with
          | (Except.error e, trX) => (Except.error e, trF ++ trE ++ trX)
          | (Except.ok documents, trX) =>
            match generateNotes env documents with
            | Except.error _ =>
              (Except.error "openai_failed", trF ++ trE ++ trX ++ [Event.generateNotes])
            | Except.ok notes =>
              match env.addPaper (paperRowFor name paperUrl (newDocsFor documents paperUrl) notes) with
              | Except.error _ =>
                (Except.error "database_failed",
                  trF ++ trE ++ trX ++
                    [Event.generateNotes,
                      Event.savePaper (paperRowFor name paperUrl (newDocsFor documents paperUrl) notes)])
              | Except.ok _ =>
                match env.addDocuments (newDocsFor documents paperUrl) with
                | Except.ok _ =>
                  (Except.ok notes,
                    trF ++ trE ++ trX ++
                      [Event.generateNotes,
                        Event.savePaper (paperRowFor name paperUrl (newDocsFor documents paperUrl) notes),
                        Event.indexDocs (newDocsFor documents paperUrl)])
                | Except.error _ =>
                  (Except.ok notes,
                    trF ++ trE ++ trX ++
                      [Event.generateNotes,
                        Event.savePaper (paperRowFor name paperUrl (newDocsFor documents paperUrl) notes),
                        Event.indexDocs (newDocsFor documents paperUrl)])
  else (Except.error "Missing OPENAI_API_KEY", [])

/-- `qaModel` (`src/web/src/pages/index.tsx` lines 305-332): the guard
`if (!documents)` is a JavaScript truthiness test on an array, then the
QA chain is invoked on the serialized documents, the joined note texts
and the question. -/
def qaModel (env : Env) (question : String) (documents : List Document)
    (notes : List ArxivPaperNote) : Except String (List QAResponse) × List Event :=
  if jsArrayFalsy documents then (Except.error "No documents found", [])
  else
    match env.invokeQaChain (formatDocumentsAsString documents) (notesAsString notes) question with
    | Except.ok rs => (Except.ok rs, [Event.modelCall documents])
    | Except.error e => (Except.error e, [Event.modelCall documents])

/-- Modelled from the spec: `SupabaseDatabase.saveQa` lives in
`database.ts`, which is not under `src/`.  Per §4.6 and §7 of the spec,
persistence failures during QA-record logging are caught at the
component boundary, logged, and never re-raised, so the call resolves
regardless of the underlying write outcome; the trace records which
outcome occurred. -/
def saveQaLogged (env : Env) (question answer context : String)
    (followups : List String) : List Event :=
  match env.saveQaWrite question answer context followups with
  | Except.ok _ => [Event.saveQaOk question answer followups]
  | Except.error e => [Event.saveQaErrorLogged e]

/-- `qaOnPaper` (`src/web/src/pages/index.tsx` lines 334-374): a failing
similarity search is logged and replaced by zero documents; a missing
row raises `No notes found`; an empty retrieval falls back to one
synthetic document when the stored full text is truthy; then the model
is called and each answer grouping is recorded. -/
def qaOnPaper (env : Env) (question paperUrl : String) :
    Except String (List QAResponse) × List Event :=
  let docs0 : List Document :=
    match env.similaritySearch question 8 paperUrl with
    | Except.ok ds => ds
    | Except.error _ => []
  match env.getPaper paperUrl with
  | none => (Except.error "No notes found", [Event.similarity question paperUrl])
  | some paper =>
    let documents : List Document :=
      if docs0.length = 0 then
        if paper.paper ≠ "" then [fallbackDocument paper.paper] else docs0
      else docs0
    match qaModel env question documents paper.notes with
    | (Except.error e, tr) => (Except.error e, Event.similarity question paperUrl :: tr)
    | (Except.ok answers, tr) =>
      let saveEvents :=
        (answers.map (fun qa =>
          saveQaLogged env question qa.answer (formatDocumentsAsString documents)
            qa.followupQuestions)).flatten
      (Except.ok answers, Event.similarity question paperUrl :: (tr ++ saveEvents))

/-- Modelled from the claim wording of the fetcher dispatch policy: an
absolute local-path pattern is a drive-letter path or a rooted path. -/
def claimedAbsoluteLocalPath (url : String) : Bool :=
  isDriveLetterPath url || jsStartsWith url "/"

/-- Sample note used by the concrete test environments. -/
def note1 : ArxivPaperNote := { note := "main result", pageNumbers := [1] }

/-- Sample extracted document used by the concrete test environments. -/
def doc1 : Document := { pageContent := "hello", metadata := [("source", "pdfs/x.pdf")] }

/-- Sample answer grouping used by the concrete test environments. -/
def qa1 : QAResponse := { answer := "a", followupQuestions := ["f"] }

/-- Sample stored paper row used by the concrete test environments. -/
def paperP : Paper := { name := "n", url := "u", paper := "full text", notes := [note1] }

/-- A concrete environment in which every collaborator succeeds, no
paper is stored yet, and no Unstructured key is configured. -/
def baseEnv : Env where
  openaiKey := true
  unstructuredKey := false
  getPaper := fun _ => none
  readFile := fun _ => Except.ok ["page"]
  httpGet := fun _ _ => Except.ok ["page"]
  unstructuredLoad := fun _ => Except.error "unconfigured"
  pdfLoaderLoad := fun _ => Except.ok [doc1]
  invokeNotesChain := fun _ => Except.ok [note1]
  addPaper := fun _ => Except.ok ()
  addDocuments := fun _ => Except.ok ()
  similaritySearch := fun _ _ _ => Except.ok []
  invokeQaChain := fun _ _ _ => Except.ok [qa1]
  saveQaWrite := fun _ _ _ _ => Except.ok ()

/-- Keeping with an empty request list keeps every page. -/
theorem keepFrom_nil (doc : Pdf) (k : Nat) : keepFrom doc [] k = doc := by
  induction doc generalizing k with
  | nil => rfl
  | cons x xs ih => simp [keepFrom, ih]

/-- A requested number strictly below the current position can never
match again and may be dropped from the request list. -/
theorem keepFrom_drop_lt (doc : Pdf) (p : Nat) (ps : List Nat) (k : Nat) (h : p < k) :
    keepFrom doc (p :: ps) k = keepFrom doc ps k := by
  induction doc generalizing k with
  | nil => rfl
  | cons x xs ih =>
    have hne : ¬ k = p := by omega
    by_cases hm : k ∈ ps
    · simp [keepFrom, List.mem_cons, hne, hm, ih (k + 1) (by omega)]
    · simp [keepFrom, List.mem_cons, hne, hm, ih (k + 1) (by omega)]

/-- Removing the current index of the head request and bumping the
position offset realizes one step of the reference semantics, provided
every later request is strictly larger. -/
theorem keepFrom_eraseIdx (doc : Pdf) (p : Nat) (ps : List Nat) :
    ∀ k : Nat, k ≤ p → p - k < doc.length → (∀ q ∈ ps, p < q) →
      keepFrom doc (p :: ps) k = keepFrom (doc.eraseIdx (p - k)) ps (k + 1) := by
  induction doc with
  | nil =>
    intro k _ hlt _
    simp at hlt
  | cons x xs ih =>
    intro k hkp hlt hafter
    by_cases hkp2 : k = p
    · subst hkp2
      have h0 : k - k = 0 := by omega
      rw [h0]
      simp only [keepFrom, List.eraseIdx]
      rw [if_pos (List.mem_cons_self k ps)]
      exact keepFrom_drop_lt xs k ps (k + 1) (by omega)
    · have hsub : p - k = (p - (k + 1)) + 1 := by omega
      have hnm : k ∉ p :: ps := by
        intro hm
        rcases List.mem_cons.mp hm with h1 | h2
        · omega
        · exact absurd (hafter k h2) (by omega)
      have hnm3 : (k + 1) ∉ ps := by
        intro hm
        exact absurd (hafter (k + 1) hm) (by omega)
      rw [hsub]
      simp only [keepFrom, List.eraseIdx]
      rw [if_neg hnm, if_neg hnm3, ih (k + 1) (by omega) (by simp at hlt; omega) hafter]

/-- Unfolding step of the deletion loop when the computed index is in
range. -/
theorem deletePagesLoop_cons_ok (doc : Pdf) (p : Int) (ps : List Int) (k : Int)
    (h0 : 0 ≤ p - k) (h1 : p - k < (doc.length : Int)) :
    deletePagesLoop doc (p :: ps) k
      = deletePagesLoop (doc.eraseIdx (p - k).toNat) ps (k + 1) := by
  have hcond : 0 ≤ p - k ∧ p - k < (doc.length : Int) := ⟨h0, h1⟩
  simp only [deletePagesLoop, removePage, if_pos hcond]

/-- C1: the claim says every non-numeric and non-positive token is
dropped, with `"1, x, -2, 4"` parsing to `[1, 4]`.  The server-side
`processPagesToDelete`, the one on the `/take_notes` request path, drops
nothing: the `NaN` (`none`) and `-2` tokens survive.  The web-side copy
behaves as claimed. -/
theorem c1_server_parse_keeps_invalid_tokens :
    processPagesToDelete "1, x, -2, 4" = [some 1, none, some (-2), some 4]
      ∧ processPagesToDeleteWeb "1, x, -2, 4" = [1, 4] :=
  ⟨rfl, rfl⟩

/-- C2: when the store already holds a paper at the target URL,
`takeNotes` returns its stored notes with an empty side-effect trace: no
fetch, no page deletion, no extraction, no note generation, no save and
no indexing happen. -/
theorem c2_existing_paper_short_circuit (env : Env) (url name : String)
    (pages : List Int) (p : Paper)
    (hkey : env.openaiKey = true) (hget : env.getPaper url = some p) :
    takeNotes env url name pages = (Except.ok p.notes, []) := by
  simp [takeNotes, hkey, hget]

/-- Concrete environment whose store already holds `paperP` at URL
`u`. -/
def envC2 : Env := { baseEnv with getPaper := fun u => if u = "u" then some paperP else none }

/-- Witness for C2 at a concrete environment and URL. -/
theorem c2_existing_paper_short_circuit_witness :
    envC2.openaiKey = true ∧ envC2.getPaper "u" = some paperP
      ∧ takeNotes envC2 "u" "n" [3] = (Except.ok paperP.notes, []) :=
  ⟨rfl, by rfl, c2_existing_paper_short_circuit envC2 "u" "n" [3] paperP rfl (by rfl)⟩

/-- C3 counterexample: on a ten-page document, requesting `[3, 5]`
deletes original pages 3 and 5, whereas the claim predicts original
pages 3 and 6; the two outcomes differ. -/
theorem c3_offset_example_false :
    deletePagesFromPdf ["p1","p2","p3","p4","p5","p6","p7","p8","p9","p10"] [3, 5]
        = Except.ok ["p1","p2","p4","p6","p7","p8","p9","p10"]
      ∧ ["p1","p2","p4","p6","p7","p8","p9","p10"]
          ≠ ["p1","p2","p4","p5","p7","p8","p9","p10"] :=
  ⟨rfl, by decide⟩

/-- The deletion loop started at offset `k` realizes the reference
semantics `keepFrom` for every strictly ascending, in-range request
list. -/
theorem deletePagesLoop_ascending (ps : List Nat) :
    ∀ (doc : Pdf) (k : Nat), 1 ≤ k →
      List.Pairwise (· < ·) ps →
      (∀ p ∈ ps, k ≤ p) →
      (∀ p ∈ ps, p < doc.length + k) →
      deletePagesLoop doc (ps.map Int.ofNat) (k : Int)
        = Except.ok (keepFrom doc ps k) := by
  induction ps with
  | nil =>
    intro doc k _ _ _ _
    simp [deletePagesLoop, keepFrom_nil]
  | cons p ps2 ih =>
    intro doc k hk hpw hlo hhi
    have hp_lo : k ≤ p := hlo p (List.mem_cons_self p ps2)
    have hp_hi : p < doc.length + k := hhi p (List.mem_cons_self p ps2)
    have h0 : (0 : Int) ≤ (p : Int) - (k : Int) := by omega
    have h1 : (p : Int) - (k : Int) < (doc.length : Int) := by omega
    rw [List.map_cons]
    simp only [Int.ofNat_eq_coe]
    rw [deletePagesLoop_cons_ok _ _ _ _ h0 h1]
    have ht : ((p : Int) - (k : Int)).toNat = p - k := by omega
    rw [ht]
    have hpair := List.pairwise_cons.mp hpw
    have hlen : (doc.eraseIdx (p - k)).length = doc.length - 1 := by
      have := List.length_eraseIdx_add_one (l := doc) (i := p - k) (by omega)
      omega
    have hcast : (k : Int) + 1 = ((k + 1 : Nat) : Int) := by push_cast; ring
    rw [hcast]
    rw [ih (doc.eraseIdx (p - k)) (k + 1) (by omega) hpair.2
      (fun q hq => by have := hpair.1 q hq; omega)
      (fun q hq => by have h2 := hhi q (List.mem_cons_of_mem p hq); omega)]
    rw [keepFrom_eraseIdx doc p ps2 k hp_lo (by omega) hpair.1]

/-- C3 amended: deletions are processed in the order given with the
shrinking offset, and because `removePage` is zero-based the offset
cancels the one-based numbering: for every strictly ascending list of
in-range one-based page numbers, exactly the requested original pages
are deleted, i.e. the result keeps exactly the pages whose original
number was not requested. -/
theorem c3_requested_pages_deleted (doc : Pdf) (ps : List Nat)
    (hasc : List.Pairwise (· < ·) ps)
    (hpos : ∀ p ∈ ps, 1 ≤ p)
    (hbound : ∀ p ∈ ps, p ≤ doc.length) :
    deletePagesFromPdf doc (ps.map Int.ofNat)
      = Except.ok (keepFrom doc ps 1) := by
  have h := deletePagesLoop_ascending ps doc 1 le_rfl hasc hpos
    (fun p hp => by have := hbound p hp; omega)
  simpa [deletePagesFromPdf] using h

/-- Witness for the amended C3 on a concrete ten-page document:
requesting `[3, 5]` keeps every page but the original pages 3 and 5. -/
theorem c3_requested_pages_deleted_witness :
    deletePagesFromPdf ["p1","p2","p3","p4","p5","p6","p7","p8","p9","p10"] [3, 5]
      = Except.ok ["p1","p2","p4","p6","p7","p8","p9","p10"] :=
  (c3_requested_pages_deleted ["p1","p2","p3","p4","p5","p6","p7","p8","p9","p10"] [3, 5]
    (by decide) (by decide) (by decide)).trans rfl

/-- C5: when everything up to and including the paper save succeeds and
vector indexing fails, `takeNotes` still returns the generated notes as
success, and the trace shows the save happening immediately before the
one indexing attempt. -/
theorem c5_indexing_failure_nonfatal (env : Env) (url name : String)
    (pages : List Int) (pdf pdf1 : Pdf) (docs : List Document)
    (notes : List ArxivPaperNote) (trF trE trX : List Event) (e : String)
    (hkey : env.openaiKey = true)
    (hnew : env.getPaper url = none)
    (hload : loadPdfFromUrl env url = (Except.ok pdf, trF))
    (hedit : editStep pdf pages = (Except.ok pdf1, trE))
    (hconv : convertPdfToDocuments env pdf1 = (Except.ok docs, trX))
    (hgen : generateNotes env docs = Except.ok notes)
    (hsave : env.addPaper (paperRowFor name url (newDocsFor docs url) notes) = Except.ok ())
    (hidx : env.addDocuments (newDocsFor docs url) = Except.error e) :
    takeNotes env url name pages
      = (Except.ok notes,
         trF ++ trE ++ trX ++
           [Event.generateNotes,
            Event.savePaper (paperRowFor name url (newDocsFor docs url) notes),
            Event.indexDocs (newDocsFor docs url)]) := by
  simp [takeNotes, hkey, hnew, hload, hedit, hconv, hgen, hsave, hidx]

/-- Concrete environment in which vector indexing fails with a quota
error and everything else succeeds. -/
def envC5 : Env := { baseEnv with addDocuments := fun _ => Except.error "quota" }

/-- Witness for C5 at a concrete environment. -/
theorem c5_indexing_failure_nonfatal_witness :
    takeNotes envC5 "http://u" "n" []
      = (Except.ok [note1],
         [Event.httpGet "http://u" 30000, Event.extractLocal, Event.generateNotes,
          Event.savePaper (paperRowFor "n" "http://u" (newDocsFor [doc1] "http://u") [note1]),
          Event.indexDocs (newDocsFor [doc1] "http://u")]) :=
  (c5_indexing_failure_nonfatal envC5 "http://u" "n" [] ["page"] ["page"] [doc1] [note1]
    [Event.httpGet "http://u" 30000] [] [Event.extractLocal] "quota"
    rfl rfl rfl rfl rfl rfl rfl rfl).trans rfl

/-- Concrete environment whose notes chain returns an empty note
sequence while everything else succeeds. -/
def envC7 : Env := { baseEnv with invokeNotesChain := fun _ => Except.ok [] }

/-- C7 counterexample: with note generation returning the empty
sequence, `takeNotes` does not abort; it persists a Paper row whose
`notes` column is empty and returns the empty list as success. -/
theorem c7_empty_notes_persisted :
    takeNotes envC7 "http://u" "n" []
      = (Except.ok [],
         [Event.httpGet "http://u" 30000, Event.extractLocal, Event.generateNotes,
          Event.savePaper { name := "n", url := "http://u", paper := "hello", notes := [] },
          Event.indexDocs
            [{ pageContent := "hello",
               metadata := [("source", "pdfs/x.pdf"), ("url", "http://u")] }]]) :=
  rfl

/-- C7 amended: ingestion performs no emptiness check on generated
notes; whenever generation succeeds with the empty sequence and the save
succeeds, the Paper is persisted with an empty notes column and the
empty list is returned as success. -/
theorem c7_empty_notes_no_check (env : Env) (url name : String) (pages : List Int)
    (pdf pdf1 : Pdf) (docs : List Document) (trF trE trX : List Event)
    (hkey : env.openaiKey = true)
    (hnew : env.getPaper url = none)
    (hload : loadPdfFromUrl env url = (Except.ok pdf, trF))
    (hedit : editStep pdf pages = (Except.ok pdf1, trE))
    (hconv : convertPdfToDocuments env pdf1 = (Except.ok docs, trX))
    (hgen : generateNotes env docs = Except.ok [])
    (hsave : env.addPaper (paperRowFor name url (newDocsFor docs url) []) = Except.ok ())
    (hidx : env.addDocuments (newDocsFor docs url) = Except.ok ()) :
    takeNotes env url name pages
      = (Except.ok [],
         trF ++ trE ++ trX ++
           [Event.generateNotes,
            Event.savePaper (paperRowFor name url (newDocsFor docs url) []),
            Event.indexDocs (newDocsFor docs url)]) := by
  simp [takeNotes, hkey, hnew, hload, hedit, hconv, hgen, hsave, hidx]

/-- Witness for the amended C7 at a concrete environment. -/
theorem c7_empty_notes_no_check_witness :
    takeNotes envC7 "http://v" "n" []
      = (Except.ok [],
         [Event.httpGet "http://v" 30000, Event.extractLocal, Event.generateNotes,
          Event.savePaper (paperRowFor "n" "http://v" (newDocsFor [doc1] "http://v") []),
          Event.indexDocs (newDocsFor [doc1] "http://v")]) :=
  (c7_empty_notes_no_check envC7 "http://v" "n" [] ["page"] ["page"] [doc1]
    [Event.httpGet "http://v" 30000] [] [Event.extractLocal]
    rfl rfl rfl rfl rfl rfl rfl rfl).trans rfl

/-- C8: whenever the high-fidelity tier is unconfigured or fails
(including by timeout, which surfaces as an error), a succeeding local
parser makes extraction succeed with its documents, and extraction
returns an error only when the local parser itself failed. -/
theorem c8_local_fallback (env : Env) (pdf : Pdf) :
    (∀ docs : List Document,
        (env.unstructuredKey = false ∨ ∃ e, env.unstructuredLoad pdf = Except.error e) →
        env.pdfLoaderLoad pdf = Except.ok docs →
        (convertPdfToDocuments env pdf).1 = Except.ok docs)
      ∧ ∀ e, (convertPdfToDocuments env pdf).1 = Except.error e →
          ∃ e2, env.pdfLoaderLoad pdf = Except.error e2 := by
  constructor
  · rintro docs (hk | ⟨e, he⟩) hl
    · simp [convertPdfToDocuments, hk, hl]
    · cases hku : env.unstructuredKey with
      | false => simp [convertPdfToDocuments, hku, hl]
      | true => simp [convertPdfToDocuments, hku, he, hl]
  · intro e hres
    cases hku : env.unstructuredKey with
    | false =>
      cases hl : env.pdfLoaderLoad pdf with
      | ok docs => simp [convertPdfToDocuments, hku, hl] at hres
      | error e2 => exact ⟨e2, rfl⟩
    | true =>
      cases hu : env.unstructuredLoad pdf with
      | ok docs => simp [convertPdfToDocuments, hku, hu] at hres
      | error eu =>
        cases hl : env.pdfLoaderLoad pdf with
        | ok docs => simp [convertPdfToDocuments, hku, hu, hl] at hres
        | error e2 => exact ⟨e2, rfl⟩

/-- Concrete environment with a configured but failing high-fidelity
tier. -/
def envC8 : Env :=
  { baseEnv with unstructuredKey := true, unstructuredLoad := fun _ => Except.error "boom" }

/-- Witness for C8: the failing tier-1 falls back to the succeeding
local parser. -/
theorem c8_local_fallback_witness :
    (convertPdfToDocuments envC8 ["page"]).1 = Except.ok [doc1] :=
  (c8_local_fallback envC8 ["page"]).1 [doc1] (Or.inr ⟨"boom", rfl⟩) rfl

/-- C9 counterexample: the relative path `papers\x.pdf` is neither a
file-scheme URL nor an absolute local-path pattern in the sense of the
claim, yet the fetcher reads it from the filesystem and issues no HTTP
GET. -/
theorem c9_backslash_path_reads_filesystem :
    claimedAbsoluteLocalPath "papers\\x.pdf" = false
      ∧ jsStartsWith "papers\\x.pdf" "file://" = false
      ∧ loadPdfFromUrl baseEnv "papers\\x.pdf"
          = (Except.ok ["page"], [Event.fileRead "papers\\x.pdf"]) :=
  ⟨rfl, rfl, rfl⟩

/-- C9 amended: the fetcher reads from the filesystem when the URL has
the `file://` scheme, or when it looks like a local path (drive-letter
path, rooted path, or any backslash in the string) and does not match
`http(s)://`; otherwise it issues a single HTTP GET with a 30000 ms
timeout.  Exactly one I/O attempt is made, and every failure surfaces as
`download_pdf_failed`. -/
theorem c9_dispatch (env : Env) (url : String) :
    (jsStartsWith url "file://" = true →
      loadPdfFromUrl env url
        = (wrapDownload (env.readFile (fileURLToPath url)),
           [Event.fileRead (fileURLToPath url)]))
    ∧ (jsStartsWith url "file://" = false → looksLikeLocalPath url = true →
        isHttpUrl url = false →
      loadPdfFromUrl env url = (wrapDownload (env.readFile url), [Event.fileRead url]))
    ∧ (jsStartsWith url "file://" = false →
        (looksLikeLocalPath url = false ∨ isHttpUrl url = true) →
      loadPdfFromUrl env url
        = (wrapDownload (env.httpGet url 30000), [Event.httpGet url 30000]))
    ∧ (loadPdfFromUrl env url).2.length = 1
    ∧ (∀ e, (loadPdfFromUrl env url).1 = Except.error e → e = "download_pdf_failed") := by
  have hw : ∀ (r : Except String Pdf) (e : String),
      wrapDownload r = Except.error e → e = "download_pdf_failed" := by
    intro r e h
    cases r with
    | ok b => simp [wrapDownload] at h
    | error e2 =>
      simp only [wrapDownload] at h
      exact (Except.error.injEq _ _ |>.mp h.symm)
  refine ⟨?_, ?_, ?_, ?_, ?_⟩
  · intro h
    simp [loadPdfFromUrl, h]
  · intro h1 h2 h3
    simp [loadPdfFromUrl, h1, h2, h3]
  · rintro h1 (h2 | h2)
    · simp [loadPdfFromUrl, h1, h2]
    · simp [loadPdfFromUrl, h1, h2]
  · by_cases h1 : jsStartsWith url "file://"
    · simp [loadPdfFromUrl, h1]
    · by_cases h2 : looksLikeLocalPath url && !isHttpUrl url
      · simp [loadPdfFromUrl, h1, h2]
      · simp [loadPdfFromUrl, h1, h2]
  · intro e he
    by_cases h1 : jsStartsWith url "file://"
    · simp only [loadPdfFromUrl, h1, if_true] at he
      exact hw _ _ he
    · by_cases h2 : looksLikeLocalPath url && !isHttpUrl url
      · simp only [loadPdfFromUrl, h1, h2] at he
        exact hw _ _ (by simpa using he)
      · simp only [loadPdfFromUrl, h1, h2] at he
        exact hw _ _ (by simpa using he)

/-- Witness for the amended C9: a drive-letter path is read from the
filesystem. -/
theorem c9_dispatch_witness :
    jsStartsWith "C:\\a.pdf" "file://" = false
      ∧ looksLikeLocalPath "C:\\a.pdf" = true
      ∧ isHttpUrl "C:\\a.pdf" = false
      ∧ loadPdfFromUrl baseEnv "C:\\a.pdf"
          = (Except.ok ["page"], [Event.fileRead "C:\\a.pdf"]) :=
  ⟨rfl, rfl, rfl, ((c9_dispatch baseEnv "C:\\a.pdf").2.1 rfl rfl rfl).trans rfl⟩

/-- C4: because `SupabaseDatabase.saveQa` (modelled from the spec as
log-and-swallow) resolves regardless of the underlying write outcome,
a successful model call always reaches the caller: the result of
`qaOnPaper` does not depend on the QA-record write oracle at all. -/
theorem c4_record_failure_cannot_block_answers (env : Env) (q url : String)
    (p : Paper) (answers : List QAResponse)
    (hget : env.getPaper url = some p)
    (hmodel : ∀ s1 s2, env.invokeQaChain s1 s2 q = Except.ok answers) :
    (qaOnPaper env q url).1 = Except.ok answers := by
  cases hs : env.similaritySearch q 8 url with
  | ok ds => simp [qaOnPaper, hget, hs, qaModel, jsArrayFalsy, hmodel]
  | error err => simp [qaOnPaper, hget, hs, qaModel, jsArrayFalsy, hmodel]

/-- Concrete environment whose QA-record write always fails. -/
def envC4 : Env :=
  { baseEnv with
      getPaper := fun _ => some paperP,
      saveQaWrite := fun _ _ _ _ => Except.error "insert_failed" }

/-- Witness for C4: with a failing QA-record write, the answers are
still returned and the failure appears in the trace as logged. -/
theorem c4_record_failure_cannot_block_answers_witness :
    envC4.saveQaWrite "q" "a" "ctx" ["f"] = Except.error "insert_failed"
      ∧ (qaOnPaper envC4 "q" "u").1 = Except.ok [qa1]
      ∧ (qaOnPaper envC4 "q" "u").2
          = [Event.similarity "q" "u", Event.modelCall [fallbackDocument "full text"],
             Event.saveQaErrorLogged "insert_failed"] :=
  ⟨rfl, c4_record_failure_cannot_block_answers envC4 "q" "u" paperP [qa1] rfl (fun _ _ => rfl),
    rfl⟩

/-- Concrete environment: similarity search throws, and the stored
paper has notes but an empty full-text column. -/
def envC6 : Env :=
  { baseEnv with
      getPaper := fun _ => some { name := "n", url := "u", paper := "", notes := [note1] },
      similaritySearch := fun _ _ _ => Except.error "search_down" }

/-- C6 counterexample: the search error is not propagated, but for this
stored Paper (empty full text) the model is invoked with no documents at
all rather than with a single fallback segment built from the stored
full text. -/
theorem c6_empty_fulltext_no_fallback_segment :
    qaOnPaper envC6 "q" "u"
      = (Except.ok [qa1],
         [Event.similarity "q" "u", Event.modelCall [], Event.saveQaOk "q" "a" ["f"]]) :=
  rfl

/-- C6 amended: a throwing or empty similarity search never propagates
and never blocks the model call; the model is invoked on the single
fallback segment built from the stored full text when that text is
non-empty, and on an empty segment list when the stored full text is
empty. -/
theorem c6_search_degradation (env : Env) (q url : String) (p : Paper)
    (answers : List QAResponse)
    (hsearch : env.similaritySearch q 8 url = Except.ok []
        ∨ ∃ err, env.similaritySearch q 8 url = Except.error err)
    (hget : env.getPaper url = some p)
    (hmodel : ∀ s1 s2, env.invokeQaChain s1 s2 q = Except.ok answers) :
    (qaOnPaper env q url).1 = Except.ok answers
      ∧ (p.paper ≠ "" → Event.modelCall [fallbackDocument p.paper] ∈ (qaOnPaper env q url).2)
      ∧ (p.paper = "" → Event.modelCall [] ∈ (qaOnPaper env q url).2) := by
  rcases hsearch with h | ⟨err, h⟩ <;> by_cases hp : p.paper = ""
  · refine ⟨?_, fun hne => absurd hp hne, fun _ => ?_⟩ <;>
      simp [qaOnPaper, hget, h, hp, qaModel, jsArrayFalsy, hmodel]
  · refine ⟨?_, fun _ => ?_, fun heq => absurd heq hp⟩ <;>
      simp [qaOnPaper, hget, h, hp, qaModel, jsArrayFalsy, hmodel]
  · refine ⟨?_, fun hne => absurd hp hne, fun _ => ?_⟩ <;>
      simp [qaOnPaper, hget, h, hp, qaModel, jsArrayFalsy, hmodel]
  · refine ⟨?_, fun _ => ?_, fun heq => absurd heq hp⟩ <;>
      simp [qaOnPaper, hget, h, hp, qaModel, jsArrayFalsy, hmodel]

/-- Concrete environment: similarity search throws and the stored paper
has a non-empty full text. -/
def envC6w : Env :=
  { baseEnv with
      getPaper := fun _ => some paperP,
      similaritySearch := fun _ _ _ => Except.error "search_down" }

/-- Witness for the amended C6: with the search down, the answers come
back and the model was called on the single fallback segment. -/
theorem c6_search_degradation_witness :
    (qaOnPaper envC6w "q" "u").1 = Except.ok [qa1]
      ∧ Event.modelCall [fallbackDocument "full text"] ∈ (qaOnPaper envC6w "q" "u").2 := by
  have h := c6_search_degradation envC6w "q" "u" paperP [qa1]
    (Or.inr ⟨"search_down", rfl⟩) rfl (fun _ _ => rfl)
  exact ⟨h.1, h.2.1 (by decide)⟩

/-- C10: with an empty retrieval result and a stored Paper that has
notes but an empty full-text column, `qaOnPaper` still invokes the model
on an empty segment list and succeeds; the `No documents found` guard of
`qaModel` cannot fire because a JavaScript array, even empty, is
truthy. -/
theorem c10_empty_fulltext_model_called (env : Env) (q url : String) (p : Paper)
    (answers : List QAResponse)
    (hsearch : env.similaritySearch q 8 url = Except.ok [])
    (hget : env.getPaper url = some p)
    (_hnotes : p.notes ≠ [])
    (hempty : p.paper = "")
    (hmodel : env.invokeQaChain (formatDocumentsAsString [])
        (notesAsString p.notes) q = Except.ok answers) :
    (qaOnPaper env q url).1 = Except.ok answers
      ∧ Event.modelCall [] ∈ (qaOnPaper env q url).2
      ∧ jsArrayFalsy ([] : List Document) = false := by
  refine ⟨?_, ?_, rfl⟩ <;>
    simp [qaOnPaper, hget, hsearch, hempty, qaModel, jsArrayFalsy, hmodel]

/-- Concrete environment: empty retrieval, stored paper with notes and
an empty full-text column. -/
def envC10 : Env :=
  { baseEnv with
      getPaper := fun _ => some { name := "n", url := "u", paper := "", notes := [note1] } }

/-- Witness for C10 at a concrete environment. -/
theorem c10_empty_fulltext_model_called_witness :
    (qaOnPaper envC10 "q" "u").1 = Except.ok [qa1]
      ∧ Event.modelCall [] ∈ (qaOnPaper envC10 "q" "u").2 := by
  have h := c10_empty_fulltext_model_called envC10 "q" "u"
    { name := "n", url := "u", paper := "", notes := [note1] } [qa1]
    rfl rfl (by decide) rfl rfl
  exact ⟨h.1, h.2.1⟩

end Rag
